import Mathlib

/-!
# gom: the configuration model and its two dispatchers

A shallow embedding of `src/config/config.go` (package `config`):

* `ConfigInstance` with its two Go maps,
* `New` and `parse` (read the file, hand the bytes to `yaml.Unmarshal`),
* `Execute` (look a command up by `args[0]`, run it on `args[1:]`),
* `Set` (look an environment up by name, run its `Set`).

The file is Go with side effects.  Each effect the source performs on something
outside the file is kept as an entry of an explicit trace, in program order:
a call of a command, a call of an environment, a call of `logger.Error`, a call
of `ioutil.ReadFile`, `filepath.Abs` or `yaml.Unmarshal`.  A Go run-time fault is
an `Outcome.panicked` result.

What the source uses but does not define is a parameter:

* the types `command` and `environment` (declared elsewhere in the package) are
  the type parameters `Cmd` and `Env`, and their methods are the fields of
  `Collaborators`;
* `logger.Error` (package `logger` of the repository) is taken to record the error
  it is given and to return;
* the file system is a `World`;
* the YAML library is a `Yaml`.
-/

namespace Gom

/-! ## Errors (`github.com/pkg/errors`) -/

/-- An `error` value.  `leaf` is an error that carries only a message
(`errors.Errorf`, or an error made outside this package); `wrap cause msg` is
`errors.Wrap(cause, msg)` / `errors.Wrapf(cause, ...)`. -/
inductive Err where
  | leaf (msg : String)
  | wrap (cause : Err) (msg : String)
deriving DecidableEq, Repr

/-- The method `Error()`: a wrapped error prints its own message, a colon and a
blank, then the error it wraps. -/
def Err.Error : Err → String
  | .leaf msg => msg
  | .wrap cause msg => msg ++ ": " ++ cause.Error

/-- The error directly below a wrapper (`errors.Unwrap`), none for a leaf. -/
def Err.cause? : Err → Option Err
  | .leaf _ => none
  | .wrap cause _ => some cause

/-- The call `errors.Errorf(format, ...)`, the format already expanded. -/
def Errorf (msg : String) : Err := .leaf msg

/-- The calls `errors.Wrap(err, msg)` and `errors.Wrapf(err, format, ...)`, the
format already expanded. -/
def Wrapf (err : Err) (msg : String) : Err := .wrap err msg

/-! ## Go maps and the configuration -/

/-- A Go `map[string]V`: the nil map, or a table.  In a table the first binding of
a key is the one the map holds. -/
inductive GoMap (V : Type) where
  | nil
  | table (entries : List (String × V))
deriving DecidableEq, Repr

/-- The two-valued index expression `v, exist := m[key]`: `some v` when the key is
present, `none` when it is not.  Indexing the nil map finds nothing. -/
def GoMap.index {V : Type} : GoMap V → String → Option V
  | .nil, _ => none
  | .table entries, key => entries.lookup key

/-- The keys of a map. -/
def GoMap.keys {V : Type} : GoMap V → List String
  | .nil => []
  | .table entries => entries.map Prod.fst

/-- The struct `ConfigInstance`. -/
structure ConfigInstance (Cmd Env : Type) where
  Name : String
  Commands : GoMap Cmd
  Environments : GoMap Env
deriving DecidableEq, Repr

/-! ## Effects of the dispatchers -/

/-- What a dispatcher does to the outside, one entry per call, in program order. -/
inductive Event (Cmd Env : Type) where
  /-- The call `command.Execute(args)` on the command value `command`. -/
  | commandExecute (command : Cmd) (args : List String)
  /-- The call `env.Set()` on the environment value `env`. -/
  | environmentSet (env : Env)
  /-- The call `logger.Error(err)`. -/
  | logError (err : Err)
deriving DecidableEq, Repr

/-- How a call ended: it returned, or it stopped with a Go run-time fault. -/
inductive Outcome where
  | returned
  | panicked (msg : String)
deriving DecidableEq, Repr

/-- The methods of `command` and `environment` the dispatchers call.  Both act on a
state `σ` of their own (processes, variables) and return Go's `error`, `none`
for `nil`.  They are taken to return to their caller. -/
structure Collaborators (Cmd Env σ : Type) where
  commandExecute : Cmd → List String → σ → Option Err × σ
  environmentSet : Env → σ → Option Err × σ

/-- The result of running a dispatcher. -/
structure Run (Cmd Env σ : Type) where
  outcome : Outcome
  trace : List (Event Cmd Env)
  state : σ

/-- The errors handed to `logger.Error`, in order. -/
def reported {Cmd Env : Type} : List (Event Cmd Env) → List Err
  | [] => []
  | .logError err :: rest => err :: reported rest
  | _ :: rest => reported rest

/-- The command calls made, in order: the command value and the arguments. -/
def commandCalls {Cmd Env : Type} : List (Event Cmd Env) → List (Cmd × List String)
  | [] => []
  | .commandExecute command args :: rest => (command, args) :: commandCalls rest
  | _ :: rest => commandCalls rest

/-- The environment calls made, in order. -/
def environmentCalls {Cmd Env : Type} : List (Event Cmd Env) → List Env
  | [] => []
  | .environmentSet env :: rest => env :: environmentCalls rest
  | _ :: rest => environmentCalls rest

/-- The call `strings.Join(args, " ")`. -/
def joinArgs (args : List String) : String := String.intercalate " " args

/-- The method `(ci *ConfigInstance) Execute(args []string)`, for a receiver that
points to `ci`.  `args[0]` on an empty slice is Go's index-out-of-range fault; it
is evaluated before the map is indexed.  `args[1:]` is `args.drop 1`. -/
def Execute {Cmd Env σ : Type} (k : Collaborators Cmd Env σ)
    (ci : ConfigInstance Cmd Env) (args : List String) (s : σ) : Run Cmd Env σ :=
  match args[0]? with
  | none => ⟨.panicked "index out of range [0] with length 0", [], s⟩
  | some name =>
    match ci.Commands.index name with
    | some command =>
      match k.commandExecute command (args.drop 1) s with
      | (some err, s') =>
        ⟨.returned,
          [.commandExecute command (args.drop 1),
           .logError (Wrapf err ("Command '" ++ joinArgs args ++ "' Failed"))],
          s'⟩
      | (none, s') => ⟨.returned, [.commandExecute command (args.drop 1)], s'⟩
    | none =>
      ⟨.returned,
        [.logError (Errorf ("Command '" ++ name ++ "' Failed: Command is not defined"))],
        s⟩

/-- The method `(ci *ConfigInstance) Set(name string)`, for a receiver that points
to `ci`. -/
def Set {Cmd Env σ : Type} (k : Collaborators Cmd Env σ)
    (ci : ConfigInstance Cmd Env) (name : String) (s : σ) : Run Cmd Env σ :=
  match ci.Environments.index name with
  | some env =>
    match k.environmentSet env s with
    | (some err, s') =>
      ⟨.returned,
        [.environmentSet env,
         .logError (Wrapf err ("Environment '" ++ name ++ "' Failed"))],
        s'⟩
    | (none, s') => ⟨.returned, [.environmentSet env], s'⟩
  | none =>
    ⟨.returned,
      [.logError (Errorf ("Environment '" ++ name ++ "' Failed: Environment not defined"))],
      s⟩

/-! ## The loader -/

/-- The content of a file, `[]byte`. -/
abbrev Bytes := List UInt8

/-- The file system as the loader sees it.  `readFile` is `ioutil.ReadFile`;
`abs` is `filepath.Abs`, which fails when the path is relative and the working
directory cannot be determined. -/
structure World where
  readFile : String → Except Err Bytes
  abs : String → Except Err String

/-- The call `filepath.Abs(path)` with Go's pair of results: on failure the string
is empty and the error is set. -/
def Abs (w : World) (path : String) : String × Option Err :=
  match w.abs path with
  | .ok absPath => (absPath, none)
  | .error err => ("", some err)

/-- What `yaml.v2`'s parser makes of a content (`p.parse()` in `unmarshal`): a
syntax error, which carries the library's whole message; no node at all, for a
stream without a document; or the root node of the first document. -/
inductive Scanned (N : Type) where
  | failure (msg : String)
  | noDocument
  | document (root : N)

/-- The YAML library, `gopkg.in/yaml.v2`, for a target of type `**ConfigInstance`.
`scan` is its parser; `decode node ci` is `d.unmarshal(node, v)` with `v` the
pointer `ci` (none for nil): it returns the pointer as the decoder leaves it and
the type errors it collected (`d.terrors`).  `scan_empty` is the parser's case
`yaml_STREAM_END_EVENT`: an empty buffer has no node. -/
structure Yaml (Cmd Env N : Type) where
  scan : Bytes → Scanned N
  decode : N → Option (ConfigInstance Cmd Env) → Option (ConfigInstance Cmd Env) × List String
  scan_empty : scan [] = .noDocument

/-- The message of `yaml.TypeError`. -/
def typeErrorMessage (terrors : List String) : String :=
  "yaml: unmarshal errors:\n  " ++ String.intercalate "\n  " terrors

/-- The call `yaml.Unmarshal(data, &ci)`: the value of `ci` afterwards and the
error.  Without a node the decoder is not run and `ci` is left as it was. -/
def Unmarshal {Cmd Env N : Type} (y : Yaml Cmd Env N) (data : Bytes)
    (ci : Option (ConfigInstance Cmd Env)) : Option (ConfigInstance Cmd Env) × Option Err :=
  match y.scan data with
  | .failure msg => (ci, some (.leaf msg))
  | .noDocument => (ci, none)
  | .document root =>
    match y.decode root ci with
    | (ci', []) => (ci', none)
    | (ci', terror :: terrors) => (ci', some (.leaf (typeErrorMessage (terror :: terrors))))

/-- A call the loader makes to the outside, in program order. -/
inductive Call where
  | readFile (path : String)
  | abs (path : String)
  | unmarshal (data : Bytes)
deriving DecidableEq, Repr

/-- The two results of `parse`, and the calls it made. -/
structure Loaded (Cmd Env : Type) where
  ci : Option (ConfigInstance Cmd Env)
  err : Option Err
  calls : List Call

/-- The method `(ci *ConfigInstance) parse(path string) (*ConfigInstance, error)`.
The receiver `ci` is a pointer, none for nil; `yaml.Unmarshal` is given its
address. -/
def parse {Cmd Env N : Type} (w : World) (y : Yaml Cmd Env N)
    (ci : Option (ConfigInstance Cmd Env)) (path : String) : Loaded Cmd Env :=
  match w.readFile path with
  | .error _ =>
    let absPath := (Abs w path).1
    ⟨none,
      some (Errorf ("Unable to read file " ++ absPath ++ "\nCreate a configuration file first")),
      [.readFile path, .abs path]⟩
  | .ok data =>
    match Unmarshal y data ci with
    | (_, some err) => ⟨none, some (Wrapf err "File structure"), [.readFile path, .unmarshal data]⟩
    | (ci', none) => ⟨ci', none, [.readFile path, .unmarshal data]⟩

/-- The function `New(path string) *ConfigInstance`: the pointer it returns and the
errors it handed to `logger.Error`. -/
def New {Cmd Env N : Type} (w : World) (y : Yaml Cmd Env N) (path : String) :
    Option (ConfigInstance Cmd Env) × List Err :=
  let r := parse w y none path
  match r.err with
  | some err => (r.ci, [err])
  | none => (r.ci, [])

/-! ## Sample data

Concrete values on which the statements below are evaluated. -/

/-- A configuration with two commands and one environment; commands and
environments are written as the text they stand for. -/
def demo : ConfigInstance String String :=
  ⟨"demo", .table [("build", "go build"), ("test", "go test")], .table [("staging", "STAGE=1")]⟩

/-- A configuration whose maps are both nil. -/
def bare : ConfigInstance String String := ⟨"", .nil, .nil⟩

/-- Collaborators over a journal of what ran: the command `go test` and the
environment `BROKEN` fail, every other one succeeds. -/
def demoCollaborators : Collaborators String String (List String) :=
  ⟨fun command args s =>
      (if command = "go test" then some (.leaf "exit status 1") else none,
        s ++ [joinArgs (command :: args)]),
    fun env s => (if env = "BROKEN" then some (.leaf "invalid assignment") else none, s ++ [env])⟩

/-- Root nodes of the sample library: the empty flow mapping `{}`, and the block
mapping of `name` to the scalar `a` and of `commands` to the scalar `x`. -/
inductive DemoNode where
  | emptyMapping
  | nameThenBadCommands
deriving DecidableEq, Repr

/-- The zero `ConfigInstance`, as `reflect.New` allocates it. -/
def zeroInstance : ConfigInstance String String := ⟨"", .nil, .nil⟩

/-- The content `{}`. -/
def bracesContent : Bytes := [123, 125]

/-- The content `{`. -/
def brokenContent : Bytes := [123]

/-- The two lines `name: a` and `commands: x`. -/
def halfContent : Bytes :=
  [110, 97, 109, 101, 58, 32, 97, 10, 99, 111, 109, 109, 97, 110, 100, 115, 58, 32, 120]

/-- The sample decoder.  Both mappings allocate the target when it is nil.  The
empty mapping sets no field.  The other one sets `Name` and then cannot put a
scalar into the map `Commands`, which it records as a type error. -/
def demoDecode (node : DemoNode) (ci : Option (ConfigInstance String String)) :
    Option (ConfigInstance String String) × List String :=
  match node with
  | .emptyMapping => (some (ci.getD zeroInstance), [])
  | .nameThenBadCommands =>
    (some ⟨"a", (ci.getD zeroInstance).Commands, (ci.getD zeroInstance).Environments⟩,
      ["line 2: cannot unmarshal !!str `x` into map[string]config.command"])

/-- A library instance that agrees with `yaml.v2` on the contents used below: the
empty content has no node, `bracesContent` and `halfContent` have the root
nodes of `DemoNode`, and other contents are rejected (as `brokenContent` is). -/
def demoYaml : Yaml String String DemoNode :=
  ⟨fun data =>
      if data = [] then .noDocument
      else if data = bracesContent then .document .emptyMapping
      else if data = halfContent then .document .nameThenBadCommands
      else .failure "yaml: line 1: did not find expected node content",
    demoDecode,
    rfl⟩

/-- Whether a path starts at the root (`filepath.IsAbs` on Unix). -/
def isAbsolute (path : String) : Bool := path.data.head? = some '/'

/-- A file system holding an empty `gom.yaml`, the files `braces.yaml` and
`copy.yaml` with content `{}`, `broken.yaml` with content `{` and `half.yaml`
with `halfContent`; the working directory is `/work`, and the sample paths need no
cleaning. -/
def demoWorld : World :=
  ⟨fun path =>
      if path = "gom.yaml" then .ok []
      else if path = "braces.yaml" then .ok bracesContent
      else if path = "copy.yaml" then .ok bracesContent
      else if path = "broken.yaml" then .ok brokenContent
      else if path = "half.yaml" then .ok halfContent
      else .error (.leaf ("open " ++ path ++ ": no such file or directory")),
    fun path => if isAbsolute path then .ok path else .ok ("/work/" ++ path)⟩

/-- The same files seen from a working directory that was removed: relative paths
can be neither read nor made absolute. -/
def lostWorld : World :=
  ⟨fun path => .error (.leaf ("open " ++ path ++ ": no such file or directory")),
    fun path =>
      if isAbsolute path then .ok path else .error (.leaf "getwd: no such file or directory")⟩

end Gom

namespace Gom

/-! ## Facts about the data model -/

theorem GoMap.index_eq_none_iff {V : Type} (m : GoMap V) (key : String) :
    m.index key = none ↔ key ∉ m.keys := by
  cases m with
  | nil => simp [GoMap.index, GoMap.keys]
  | table entries =>
    induction entries with
    | nil => simp [GoMap.index, GoMap.keys]
    | cons e es ih =>
      obtain ⟨a, b⟩ := e
      simp only [GoMap.index, GoMap.keys] at ih ⊢
      by_cases hk : key = a
      · subst hk
        simp [List.lookup]
      · have hb : (key == a) = false := by simpa using hk
        simp [List.lookup, hb, ih, hk]

theorem GoMap.index_isSome_iff {V : Type} (m : GoMap V) (key : String) :
    (∃ v, m.index key = some v) ↔ key ∈ m.keys := by
  have h := GoMap.index_eq_none_iff m key
  cases hi : m.index key with
  | none => simpa [hi] using h
  | some v =>
    rw [hi] at h
    constructor
    · intro _
      by_contra hc
      exact absurd (h.mpr hc) (by simp)
    · intro _
      exact ⟨v, rfl⟩

theorem joinArgs_singleton (a : String) : joinArgs [a] = a := by
  simp [joinArgs, String.intercalate, String.intercalate.go]

theorem intercalate_go_append (acc x sep : String) (rest : List String) :
    String.intercalate.go (acc ++ x) sep rest = acc ++ String.intercalate.go x sep rest := by
  induction rest generalizing x with
  | nil => simp [String.intercalate.go]
  | cons a rest ih =>
    simp only [String.intercalate.go]
    rw [← ih (x ++ sep ++ a)]
    simp [String.append_assoc]

theorem joinArgs_cons_cons (a b : String) (rest : List String) :
    joinArgs (a :: b :: rest) = a ++ " " ++ joinArgs (b :: rest) := by
  simp only [joinArgs, String.intercalate, String.intercalate.go]
  exact intercalate_go_append (a ++ " ") b " " rest

theorem infix_data_of_append (a b c : String) : b.data <:+: (a ++ b ++ c).data := by
  refine ⟨a.data, c.data, ?_⟩
  simp [String.data_append]

/-! ## Dispatch of commands -/

/-- Claim C1.  When `args` is `name :: rest` and `name` is not a key of `Commands`
(the map may be empty or nil), `Execute` returns after handing exactly one error
to the logger; the message of that error is `Command '<name>' Failed: Command is
not defined`, so it contains the name and the words that the command is not
defined; no command and no environment is called, and the collaborators' state is
untouched. -/
theorem Execute_undefined_command {Cmd Env σ : Type} (k : Collaborators Cmd Env σ)
    (ci : ConfigInstance Cmd Env) (name : String) (rest : List String) (s : σ)
    (h : name ∉ ci.Commands.keys) :
    (Execute k ci (name :: rest) s).outcome = .returned ∧
    reported (Execute k ci (name :: rest) s).trace
      = [Errorf ("Command '" ++ name ++ "' Failed: Command is not defined")] ∧
    (Errorf ("Command '" ++ name ++ "' Failed: Command is not defined")).Error
      = "Command '" ++ name ++ "' Failed: Command is not defined" ∧
    name.data <:+: ("Command '" ++ name ++ "' Failed: Command is not defined").data ∧
    "Command is not defined".data
      <:+: ("Command '" ++ name ++ "' Failed: Command is not defined").data ∧
    commandCalls (Execute k ci (name :: rest) s).trace = [] ∧
    environmentCalls (Execute k ci (name :: rest) s).trace = [] ∧
    (Execute k ci (name :: rest) s).state = s := by
  have hi : ci.Commands.index name = none := (GoMap.index_eq_none_iff _ _).mpr h
  refine ⟨?_, ?_, rfl, ?_, ?_, ?_, ?_, ?_⟩
  · simp [Execute, hi]
  · simp [Execute, hi, reported]
  · exact infix_data_of_append _ _ _
  · refine ⟨("Command '" ++ name ++ "' Failed: ").data, [], ?_⟩
    simp [String.data_append]
  · simp [Execute, hi, commandCalls]
  · simp [Execute, hi, environmentCalls]
  · simp [Execute, hi]

/-- Witness of C1 on the configuration whose maps are nil. -/
theorem Execute_undefined_command_witness :
    "deploy" ∉ bare.Commands.keys ∧
    reported (Execute demoCollaborators bare ["deploy", "-v"] []).trace
      = [Errorf "Command 'deploy' Failed: Command is not defined"] ∧
    commandCalls (Execute demoCollaborators bare ["deploy", "-v"] []).trace = [] :=
  have h := Execute_undefined_command demoCollaborators bare "deploy" ["-v"] [] (by decide)
  ⟨by decide, h.2.1, h.2.2.2.2.2.1⟩

/-- Claim C2.  When `args` is `name :: rest` and `name` is a key of `Commands`,
`Execute` calls exactly one command, the value the map holds under `name`, exactly
once, with the arguments `rest` (all of `args` after the first, in order; empty when
`args` has one element), and calls no environment. -/
theorem Execute_forwards_arguments {Cmd Env σ : Type} (k : Collaborators Cmd Env σ)
    (ci : ConfigInstance Cmd Env) (name : String) (rest : List String) (s : σ)
    (h : name ∈ ci.Commands.keys) :
    ∃ command, ci.Commands.index name = some command ∧
      commandCalls (Execute k ci (name :: rest) s).trace = [(command, rest)] ∧
      environmentCalls (Execute k ci (name :: rest) s).trace = [] ∧
      (Execute k ci (name :: rest) s).state = (k.commandExecute command rest s).2 := by
  obtain ⟨command, hc⟩ := (GoMap.index_isSome_iff _ _).mpr h
  refine ⟨command, hc, ?_⟩
  rcases hk : k.commandExecute command rest s with ⟨_ | err, s'⟩ <;>
    simp [Execute, hc, hk, commandCalls, environmentCalls]

/-- Witness of C2: scenario A, `build -v`, and a call without arguments. -/
theorem Execute_forwards_arguments_witness :
    "build" ∈ demo.Commands.keys ∧
    commandCalls (Execute demoCollaborators demo ["build", "-v"] []).trace
      = [("go build", ["-v"])] ∧
    commandCalls (Execute demoCollaborators demo ["build"] []).trace = [("go build", [])] := by
  obtain ⟨c, hc, h, -⟩ :=
    Execute_forwards_arguments demoCollaborators demo "build" ["-v"] [] (by decide)
  have hc' : c = "go build" := by
    have : demo.Commands.index "build" = some "go build" := by decide
    rw [this] at hc
    exact (Option.some.inj hc).symm
  subst hc'
  exact ⟨by decide, h, by decide⟩

/-- Claim C3.  When `args` is `name :: rest` and `Commands` holds `command` under
`name`, `Execute` hands an error to the logger exactly when the call of `command`
returns one.  In that case the logger gets one error, which wraps the command's
error; its context is `Command '<args joined by single blanks>' Failed`, the join
being over all of `args`, the name included.  The command is called once, so it is
not tried again. -/
theorem Execute_reports_command_failure {Cmd Env σ : Type} (k : Collaborators Cmd Env σ)
    (ci : ConfigInstance Cmd Env) (name : String) (rest : List String) (s : σ)
    (command : Cmd) (h : ci.Commands.index name = some command) :
    (reported (Execute k ci (name :: rest) s).trace ≠ []
      ↔ (k.commandExecute command rest s).1 ≠ none) ∧
    (∀ err, (k.commandExecute command rest s).1 = some err →
      reported (Execute k ci (name :: rest) s).trace
        = [Wrapf err ("Command '" ++ joinArgs (name :: rest) ++ "' Failed")] ∧
      (Wrapf err ("Command '" ++ joinArgs (name :: rest) ++ "' Failed")).cause? = some err ∧
      (Wrapf err ("Command '" ++ joinArgs (name :: rest) ++ "' Failed")).Error
        = "Command '" ++ joinArgs (name :: rest) ++ "' Failed" ++ ": " ++ err.Error) ∧
    commandCalls (Execute k ci (name :: rest) s).trace = [(command, rest)] ∧
    (Execute k ci (name :: rest) s).outcome = .returned := by
  rcases hk : k.commandExecute command rest s with ⟨_ | err, s'⟩
  · simp [Execute, h, hk, commandCalls, reported]
  · simp [Execute, h, hk, commandCalls, reported, Wrapf, Err.cause?, Err.Error]

/-- Witness of C3: `go test` fails, and the report quotes the whole command line. -/
theorem Execute_reports_command_failure_witness :
    demo.Commands.index "test" = some "go test" ∧
    reported (Execute demoCollaborators demo ["test", "-v", "./..."] []).trace
      = [.wrap (.leaf "exit status 1") "Command 'test -v ./...' Failed"] ∧
    (Err.wrap (.leaf "exit status 1") "Command 'test -v ./...' Failed").Error
      = "Command 'test -v ./...' Failed: exit status 1" :=
  have h := (Execute_reports_command_failure demoCollaborators demo "test" ["-v", "./..."] []
    "go test" (by decide)).2.1 (.leaf "exit status 1") (by decide)
  ⟨by decide, h.1, by decide⟩

/-! ## Activation of environments -/

/-- Claim C4.  When `name` is not a key of `Environments` (the map may be empty or
nil), `Set` returns after handing exactly one error to the logger; its message is
`Environment '<name>' Failed: Environment not defined`, so it contains the name
and the words that the environment is not defined; no environment and no command
is called. -/
theorem Set_undefined_environment {Cmd Env σ : Type} (k : Collaborators Cmd Env σ)
    (ci : ConfigInstance Cmd Env) (name : String) (s : σ)
    (h : name ∉ ci.Environments.keys) :
    (Set k ci name s).outcome = .returned ∧
    reported (Set k ci name s).trace
      = [Errorf ("Environment '" ++ name ++ "' Failed: Environment not defined")] ∧
    (Errorf ("Environment '" ++ name ++ "' Failed: Environment not defined")).Error
      = "Environment '" ++ name ++ "' Failed: Environment not defined" ∧
    name.data <:+: ("Environment '" ++ name ++ "' Failed: Environment not defined").data ∧
    "Environment not defined".data
      <:+: ("Environment '" ++ name ++ "' Failed: Environment not defined").data ∧
    environmentCalls (Set k ci name s).trace = [] ∧
    commandCalls (Set k ci name s).trace = [] ∧
    (Set k ci name s).state = s := by
  have hi : ci.Environments.index name = none := (GoMap.index_eq_none_iff _ _).mpr h
  refine ⟨?_, ?_, rfl, ?_, ?_, ?_, ?_, ?_⟩
  · simp [Set, hi]
  · simp [Set, hi, reported]
  · exact infix_data_of_append _ _ _
  · refine ⟨("Environment '" ++ name ++ "' Failed: ").data, [], ?_⟩
    simp [String.data_append]
  · simp [Set, hi, environmentCalls]
  · simp [Set, hi, commandCalls]
  · simp [Set, hi]

/-- Witness of C4 on a configuration that has environments, and on one whose map
is nil. -/
theorem Set_undefined_environment_witness :
    "prod" ∉ demo.Environments.keys ∧
    reported (Set demoCollaborators demo "prod" []).trace
      = [Errorf "Environment 'prod' Failed: Environment not defined"] ∧
    environmentCalls (Set demoCollaborators demo "prod" []).trace = [] ∧
    reported (Set demoCollaborators bare "prod" []).trace
      = [Errorf "Environment 'prod' Failed: Environment not defined"] :=
  have h := Set_undefined_environment demoCollaborators demo "prod" [] (by decide)
  ⟨by decide, h.2.1, h.2.2.2.2.2.1, by decide⟩

/-- Claim C5.  When `name` is a key of `Environments`, `Set` calls exactly one
environment, the value the map holds under `name`, exactly once, and no command:
the trace starts with that one call, the state `Set` leaves is the state one
application of the environment's `Set` leaves, and `Set` returns.  It hands an
error to the logger exactly when that call returns one; the logger then gets one
error, after the call, which wraps the environment's error with the context
`Environment '<name>' Failed`. -/
theorem Set_activates_environment {Cmd Env σ : Type} (k : Collaborators Cmd Env σ)
    (ci : ConfigInstance Cmd Env) (name : String) (s : σ)
    (h : name ∈ ci.Environments.keys) :
    ∃ env, ci.Environments.index name = some env ∧
      environmentCalls (Set k ci name s).trace = [env] ∧
      commandCalls (Set k ci name s).trace = [] ∧
      (Set k ci name s).state = (k.environmentSet env s).2 ∧
      (Set k ci name s).outcome = .returned ∧
      (Set k ci name s).trace = .environmentSet env ::
        (match (k.environmentSet env s).1 with
          | none => []
          | some err => [.logError (Wrapf err ("Environment '" ++ name ++ "' Failed"))]) ∧
      (reported (Set k ci name s).trace ≠ [] ↔ (k.environmentSet env s).1 ≠ none) ∧
      (∀ err, (k.environmentSet env s).1 = some err →
        reported (Set k ci name s).trace
          = [Wrapf err ("Environment '" ++ name ++ "' Failed")] ∧
        (Wrapf err ("Environment '" ++ name ++ "' Failed")).cause? = some err ∧
        (Wrapf err ("Environment '" ++ name ++ "' Failed")).Error
          = "Environment '" ++ name ++ "' Failed" ++ ": " ++ err.Error ∧
        name.data <:+: ("Environment '" ++ name ++ "' Failed").data) := by
  obtain ⟨env, he⟩ := (GoMap.index_isSome_iff _ _).mpr h
  refine ⟨env, he, ?_⟩
  rcases hk : k.environmentSet env s with ⟨_ | err, s'⟩
  · simp [Set, he, hk, commandCalls, environmentCalls, reported]
  · have hin : name.data <:+: ("Environment '" ++ name ++ "' Failed").data :=
      infix_data_of_append _ _ _
    refine ⟨?_, ?_, ?_, ?_, ?_, ?_, ?_⟩
    · simp [Set, he, hk, environmentCalls]
    · simp [Set, he, hk, commandCalls]
    · simp [Set, he, hk]
    · simp [Set, he, hk]
    · simp [Set, he, hk]
    · simp [Set, he, hk, reported]
    · intro e he'
      cases he'
      exact ⟨by simp [Set, he, hk, reported], rfl, rfl, hin⟩

/-- Witness of C5: scenario C, the environment `staging` is set once, its effect
is the one entry of the journal, and nothing is reported. -/
theorem Set_activates_environment_witness :
    "staging" ∈ demo.Environments.keys ∧
    environmentCalls (Set demoCollaborators demo "staging" []).trace = ["STAGE=1"] ∧
    (Set demoCollaborators demo "staging" []).state = ["STAGE=1"] ∧
    (Set demoCollaborators demo "staging" []).outcome = .returned ∧
    reported (Set demoCollaborators demo "staging" []).trace = [] := by
  obtain ⟨env, he, h, -, hs, ho, -⟩ :=
    Set_activates_environment demoCollaborators demo "staging" [] (by decide)
  have he' : env = "STAGE=1" := by
    have : demo.Environments.index "staging" = some "STAGE=1" := by decide
    rw [this] at he
    exact (Option.some.inj he).symm
  subst he'
  exact ⟨by decide, h, by rw [hs]; decide, ho, by decide⟩

/-! ## The precondition of `Execute` -/

/-- Claim C10.  `Execute` does not guard against empty `args`.  For non-empty
`args` the element `args[0]` exists, the slice `args[1:]` is the rest of `args`,
and `Execute` returns.  For empty `args` it stops with the run-time fault of
`args[0]`: it does not return, the logger gets no error (no `InvalidInvocation`,
nor any other), no command and no environment is called and the collaborators'
state is untouched. -/
theorem Execute_precondition {Cmd Env σ : Type} (k : Collaborators Cmd Env σ)
    (ci : ConfigInstance Cmd Env) (s : σ) :
    (∀ args : List String, args ≠ [] →
      (∃ name, args[0]? = some name ∧ args = name :: args.drop 1) ∧
      (Execute k ci args s).outcome = .returned) ∧
    (Execute k ci [] s).outcome = .panicked "index out of range [0] with length 0" ∧
    (Execute k ci [] s).trace = [] ∧
    reported (Execute k ci [] s).trace = [] ∧
    commandCalls (Execute k ci [] s).trace = [] ∧
    (Execute k ci [] s).state = s := by
  refine ⟨?_, rfl, rfl, rfl, rfl, rfl⟩
  intro args hargs
  cases args with
  | nil => exact absurd rfl hargs
  | cons name rest =>
    refine ⟨⟨name, by simp, by simp⟩, ?_⟩
    cases hi : ci.Commands.index name with
    | none => simp [Execute, hi]
    | some command =>
      rcases hk : k.commandExecute command rest s with ⟨_ | err, s'⟩ <;>
        simp [Execute, hi, hk]

/-- Witness of C10: a call with one argument returns, also for a command that is
not defined. -/
theorem Execute_precondition_witness :
    (Execute demoCollaborators demo ["build"] []).outcome = .returned ∧
    (Execute demoCollaborators demo ["deploy"] []).outcome = .returned :=
  ⟨((Execute_precondition demoCollaborators demo []).1 ["build"] (by decide)).2,
   ((Execute_precondition demoCollaborators demo []).1 ["deploy"] (by decide)).2⟩

/-! ## The loader -/

/-- Claim C6, as stated, fails where `filepath.Abs` fails.  From a working
directory that no longer exists the relative path `gom.yaml` can be neither read
nor made absolute; the error of `parse` then reads `Unable to read file `, a line
break and `Create a configuration file first`: it contains neither the path nor
any path separator, so no absolute form of the path. -/
theorem parse_unreadable_without_absolute_path :
    (∃ e, lostWorld.readFile "gom.yaml" = .error e) ∧
    (∃ e, Abs lostWorld "gom.yaml" = ("", some e)) ∧
    (parse lostWorld demoYaml none "gom.yaml").err
      = some (Errorf "Unable to read file \nCreate a configuration file first") ∧
    ¬ "gom.yaml".data <:+: "Unable to read file \nCreate a configuration file first".data ∧
    '/' ∉ "Unable to read file \nCreate a configuration file first".data := by
  refine ⟨⟨_, rfl⟩, ⟨_, rfl⟩, by decide, by decide, by decide⟩

/-- Claim C6, amended.  When the file at `path` cannot be read, `parse` returns no
instance and an error, and does not call the deserializer.  The message of the
error is `Unable to read file `, the string `filepath.Abs` returned, a line break
and `Create a configuration file first`.  So it contains the instruction, and it
contains the absolute form of the path whenever `filepath.Abs` resolves it; when
`filepath.Abs` fails, the place of the path is empty.  `New` returns nil and logs
that error. -/
theorem parse_unreadable {Cmd Env N : Type} (w : World) (y : Yaml Cmd Env N)
    (ci : Option (ConfigInstance Cmd Env)) (path : String) (e : Err)
    (h : w.readFile path = .error e) :
    (parse w y ci path).ci = none ∧
    (parse w y ci path).err = some (Errorf
      ("Unable to read file " ++ (Abs w path).1 ++ "\nCreate a configuration file first")) ∧
    (∀ data, Call.unmarshal data ∉ (parse w y ci path).calls) ∧
    "Create a configuration file first".data <:+:
      ("Unable to read file " ++ (Abs w path).1 ++ "\nCreate a configuration file first").data ∧
    (∀ absPath, w.abs path = .ok absPath →
      (Abs w path).1 = absPath ∧
      absPath.data <:+:
        ("Unable to read file " ++ (Abs w path).1
          ++ "\nCreate a configuration file first").data) ∧
    (∀ e', w.abs path = .error e' → (Abs w path).1 = "") ∧
    New w y path = (none, [Errorf
      ("Unable to read file " ++ (Abs w path).1 ++ "\nCreate a configuration file first")]) := by
  refine ⟨?_, ?_, ?_, ?_, ?_, ?_, ?_⟩
  · simp [parse, h]
  · simp [parse, h]
  · intro data
    simp [parse, h]
  · refine ⟨("Unable to read file " ++ (Abs w path).1 ++ "\n").data, [], ?_⟩
    simp [String.data_append]
  · intro absPath ha
    have hA : (Abs w path).1 = absPath := by simp [Abs, ha]
    refine ⟨hA, ?_⟩
    rw [hA]
    exact infix_data_of_append _ _ _
  · intro e' he
    simp [Abs, he]
  · simp [New, parse, h]

/-- Witness of C6, amended: a missing file below the working directory `/work`. -/
theorem parse_unreadable_witness :
    (parse demoWorld demoYaml none "missing.yaml").ci = none ∧
    (parse demoWorld demoYaml none "missing.yaml").err = some (Errorf
      "Unable to read file /work/missing.yaml\nCreate a configuration file first") ∧
    (parse demoWorld demoYaml none "missing.yaml").calls
      = [.readFile "missing.yaml", .abs "missing.yaml"] :=
  have h := parse_unreadable demoWorld demoYaml none "missing.yaml"
    (.leaf "open missing.yaml: no such file or directory") rfl
  ⟨h.1, by decide, by decide⟩

/-- Claim C7.  When the file is read and `yaml.Unmarshal` returns an error, be it a
syntax error or the type errors of the decoder, `parse` returns that error wrapped
with the context `File structure`, whose message is `File structure: ` followed by
the library's message, and returns no instance, whatever the decoder stored
before it failed and whatever the receiver was. -/
theorem parse_malformed {Cmd Env N : Type} (w : World) (y : Yaml Cmd Env N)
    (ci : Option (ConfigInstance Cmd Env)) (path : String) (data : Bytes) (err : Err)
    (hread : w.readFile path = .ok data) (hyaml : (Unmarshal y data ci).2 = some err) :
    (parse w y ci path).ci = none ∧
    (parse w y ci path).err = some (Wrapf err "File structure") ∧
    (Wrapf err "File structure").cause? = some err ∧
    (Wrapf err "File structure").Error = "File structure" ++ ": " ++ err.Error ∧
    (∀ err', (Unmarshal y data none).2 = some err' →
      New w y path = (none, [Wrapf err' "File structure"])) := by
  refine ⟨?_, ?_, rfl, rfl, ?_⟩
  · rcases hu : Unmarshal y data ci with ⟨ci', _ | err'⟩
    · rw [hu] at hyaml
      cases hyaml
    · simp [parse, hread, hu]
  · rcases hu : Unmarshal y data ci with ⟨ci', _ | err'⟩
    · rw [hu] at hyaml
      cases hyaml
    · rw [hu] at hyaml
      cases hyaml
      simp [parse, hread, hu]
  · intro err' h'
    rcases hu : Unmarshal y data none with ⟨ci', _ | err₂⟩
    · rw [hu] at h'
      cases h'
    · rw [hu] at h'
      cases h'
      simp [New, parse, hread, hu]

/-- Witness of C7: in `half.yaml` the decoder has stored the name before it
fails on `commands`; `parse` returns no instance.  The same for the syntax error
of `broken.yaml`. -/
theorem parse_malformed_witness :
    (Unmarshal demoYaml halfContent none).1 = some ⟨"a", .nil, .nil⟩ ∧
    (parse demoWorld demoYaml none "half.yaml").ci = none ∧
    ((parse demoWorld demoYaml none "half.yaml").err.map Err.Error) = some
      ("File structure: yaml: unmarshal errors:\n  "
        ++ "line 2: cannot unmarshal !!str `x` into map[string]config.command") ∧
    (parse demoWorld demoYaml none "broken.yaml").ci = none ∧
    ((parse demoWorld demoYaml none "broken.yaml").err.map Err.Error) = some
      "File structure: yaml: line 1: did not find expected node content" :=
  have h := parse_malformed demoWorld demoYaml none "half.yaml" halfContent
    (.leaf (typeErrorMessage
      ["line 2: cannot unmarshal !!str `x` into map[string]config.command"])) rfl rfl
  ⟨by decide, h.1, by decide, by decide, by decide⟩

/-- Claim C8 fails on the empty file.  When the file at `path` is read and is
empty, `yaml.Unmarshal` finds no node, leaves the nil pointer of `New` as it is
and returns no error; so `parse` on the nil receiver returns no error and no
instance, and `New` returns nil without logging anything. -/
theorem New_empty_file_nil {Cmd Env N : Type} (w : World) (y : Yaml Cmd Env N)
    (path : String) (h : w.readFile path = .ok []) :
    (parse w y none path).err = none ∧
    (parse w y none path).ci = none ∧
    (parse w y none path).calls = [.readFile path, .unmarshal []] ∧
    New w y path = (none, []) := by
  have hu : Unmarshal y [] (none : Option (ConfigInstance Cmd Env)) = (none, none) := by
    simp [Unmarshal, y.scan_empty]
  simp [New, parse, h, hu]

/-- Witness of C8's failure: the empty `gom.yaml`. -/
theorem New_empty_file_nil_witness :
    demoWorld.readFile "gom.yaml" = .ok [] ∧
    New demoWorld demoYaml "gom.yaml" = (none, []) :=
  ⟨rfl, (New_empty_file_nil demoWorld demoYaml "gom.yaml" rfl).2.2.2⟩

/-- Claim C9, as stated, fails for receivers that are already populated.  The
empty file `gom.yaml` is parsed without error on the receivers `demo` and `bare`,
and each call returns its own receiver; the two differ.  The same holds for
`braces.yaml`, whose content is the empty mapping. -/
theorem parse_keeps_receiver_fields :
    (parse demoWorld demoYaml (some demo) "gom.yaml").err = none ∧
    (parse demoWorld demoYaml (some bare) "gom.yaml").err = none ∧
    (parse demoWorld demoYaml (some demo) "gom.yaml").ci = some demo ∧
    (parse demoWorld demoYaml (some bare) "gom.yaml").ci = some bare ∧
    (parse demoWorld demoYaml (some demo) "braces.yaml").err = none ∧
    (parse demoWorld demoYaml (some bare) "braces.yaml").err = none ∧
    (parse demoWorld demoYaml (some demo) "braces.yaml").ci = some demo ∧
    (parse demoWorld demoYaml (some bare) "braces.yaml").ci = some bare ∧
    demo ≠ bare := by
  decide

/-- Claim C9, amended.  Two calls of `parse` on equal receivers, in particular on
the nil receiver as `New` makes them, that read the same content return the same
instance and the same error, whatever the paths and whatever else the file
systems hold; so do two calls of `New`. -/
theorem parse_depends_on_content {Cmd Env N : Type} (y : Yaml Cmd Env N)
    (w₁ w₂ : World) (path₁ path₂ : String) (data : Bytes)
    (ci : Option (ConfigInstance Cmd Env))
    (h₁ : w₁.readFile path₁ = .ok data) (h₂ : w₂.readFile path₂ = .ok data) :
    (parse w₁ y ci path₁).ci = (parse w₂ y ci path₂).ci ∧
    (parse w₁ y ci path₁).err = (parse w₂ y ci path₂).err ∧
    (parse w₁ y ci path₁).ci = (Unmarshal y data ci).2.elim (Unmarshal y data ci).1
      (fun _ => none) ∧
    New w₁ y path₁ = New w₂ y path₂ := by
  rcases hu : Unmarshal y data ci with ⟨ci', _ | err⟩ <;>
  rcases hn : Unmarshal y data none with ⟨ci'', _ | err'⟩ <;>
    simp [New, parse, h₁, h₂, hu, hn]

/-- Witness of C9, amended: `braces.yaml` and `copy.yaml` hold the same content and
load to the same instance, the zero instance. -/
theorem parse_depends_on_content_witness :
    New demoWorld demoYaml "braces.yaml" = New demoWorld demoYaml "copy.yaml" ∧
    New demoWorld demoYaml "braces.yaml" = (some zeroInstance, []) :=
  ⟨(parse_depends_on_content demoYaml demoWorld demoWorld "braces.yaml" "copy.yaml"
      bracesContent none rfl rfl).2.2.2, by decide⟩

end Gom
